import Mathlib

/-!
Verification development for the snow-plow flake registry (src/main.rs).

The Rust program keeps a `HashMap<String, Flake>` of named flakes, persists it
to a CSV file, and shells out to `nix` once per enabled flake.  We embed the
registry as an association list with unique keys (the map's iteration order is
arbitrary, so theorems that depend on order quantify over permutations), the
subprocess layer as an oracle `String → CmdOutput` giving the exit status and
captured stderr lines of the spawned command, and `std::path::absolute` as an
oracle `String → Option String` (`none` models its I/O failure).  Terminal
output to stdout (progress lines) is not modelled; `warn` side effects are
modelled as the list of messages passed to `warn`, and `handle_errors` with
`should_exit = false` as a list of reported error vectors.
-/

deriving instance DecidableEq for Except

namespace SnowPlow

/-- Embeds struct `Flake` (main.rs lines 57-61): the absolute path of the
flake directory and the enabled flag. -/
structure Flake where
  path : String
  enabled : Bool
deriving DecidableEq

/-- Embeds struct `NamedFlake` (main.rs lines 28-32), the CSV record type used
for serializing flakes. -/
structure NamedFlake where
  name : String
  path : String
  enabled : Bool
deriving DecidableEq

/-- The in-memory registry `flakes : HashMap<String, Flake>` of `Interface`,
modelled as an association list whose keys are unique. -/
abbrev Registry := List (String × Flake)

/-- Embeds `impl From<NamedFlake> for (String, Flake)` (main.rs lines 34-42). -/
def NamedFlake.toEntry (nf : NamedFlake) : String × Flake :=
  (nf.name, { path := nf.path, enabled := nf.enabled })

/-- Embeds `impl From<(String, Flake)> for NamedFlake` (main.rs lines 44-52). -/
def entryToNamed (p : String × Flake) : NamedFlake :=
  { name := p.1, path := p.2.path, enabled := p.2.enabled }

/-- Model of `HashMap::contains_key` on the association list. -/
def containsKey (st : Registry) (name : String) : Bool :=
  st.any (fun p => p.1 == name)

/-- Model of `HashMap::get` on the association list. -/
def findFlake (st : Registry) (name : String) : Option Flake :=
  (st.find? (fun p => p.1 == name)).map Prod.snd

/-- Model of `HashMap::insert`: replaces the value when the key is present
(returning the old value, as Rust's `insert` does) and appends otherwise. -/
def insertFlake (st : Registry) (name : String) (f : Flake) :
    Registry × Option Flake :=
  match findFlake st name with
  | some old => (st.map (fun p => if p.1 == name then (p.1, f) else p), some old)
  | none => (st ++ [(name, f)], none)

/-- Helper for `strStartsWith`: character-list version of `str::starts_with`. -/
def startsWithChars : List Char → List Char → Bool
  | _, [] => true
  | [], _ :: _ => false
  | c :: cs, d :: ds => c == d && startsWithChars cs ds

/-- Model of Rust's `str::starts_with`, on the string's character list so that
the kernel can evaluate it on concrete inputs. -/
def strStartsWith (s pre : String) : Bool :=
  startsWithChars s.data pre.data

/-- Model of Rust's `str::trim`: drops whitespace from both ends. -/
def strTrim (s : String) : String :=
  String.mk (((s.data.dropWhile Char.isWhitespace).reverse.dropWhile
    Char.isWhitespace).reverse)

/-- Embeds enum `Error` (main.rs lines 76-91).  `Io` keeps only the file name
string (the OS error itself is not modelled); `NoConfig` and `Internal` belong
to paths outside the embedded operations. -/
inductive Err where
  | ioErr : String → Err
  | nix : List String → Err
  | trackedFlake : String → Err
  | missingFlake : String → Err
  | noFlake : String → Err
deriving DecidableEq

/-- The observable behaviour of one spawned `nix` command: its exit status and
the lines captured from its stderr stream (`Output` in `Interface::perform`). -/
structure CmdOutput where
  exitSuccess : Bool
  stderrLines : List String
deriving DecidableEq

/-- An oracle giving, for each flake path, the outcome of the external `nix`
invocation against it. -/
abbrev RunnerOracle := String → CmdOutput

/-- State of the stderr classification loop in `Interface::perform`
(main.rs lines 344-369): the error vector `v`, the warnings emitted so far,
and the `current_error` accumulator. -/
structure ClassifyState where
  records : List Err
  warnings : List String
  current : Option (List String)
deriving DecidableEq

/-- Embeds the `push_error` closure (main.rs lines 348-352): flushes the open
error record, if any, into the result vector. -/
def pushError (s : ClassifyState) : ClassifyState :=
  match s.current with
  | some err => { s with records := s.records ++ [Err.nix err], current := none }
  | none => s

/-- One when an error record is open in a classification state, zero
otherwise (used to count the records a stream produces). -/
def openCount (s : ClassifyState) : Nat :=
  if s.current.isSome then 1 else 0

/-- The message passed to `warn` for a stderr line that is reported
immediately (main.rs lines 360 and 366). -/
def nixWarnMsg (line : String) : String :=
  "nix: " ++ strTrim line

/-- Embeds the body of the `for line in output.stderr.lines()` loop in
`Interface::perform` (main.rs lines 353-369). -/
def classifyLine (s : ClassifyState) (line : String) : ClassifyState :=
  if strStartsWith line "error:" then
    let s1 := pushError s
    { s1 with current := some [strTrim line] }
  else if strStartsWith line "warning:" then
    let s1 := pushError s
    { s1 with warnings := s1.warnings ++ [nixWarnMsg line] }
  else
    match s.current with
    | some err => { s with current := some (err ++ [strTrim line]) }
    | none => { s with warnings := s.warnings ++ [nixWarnMsg line] }

/-- The whole stderr classification of `Interface::perform` on a failed
command: fold the loop over the lines, then flush the final open record
(main.rs line 370).  Returns the error vector `v` and the emitted warnings. -/
def classifyStderr (lines : List String) : List Err × List String :=
  let s := pushError (lines.foldl classifyLine { records := [], warnings := [], current := none })
  (s.records, s.warnings)

/-- Embeds `Interface::perform` (main.rs lines 339-374): on success nothing is
read from stderr and no warning is emitted; on failure the classified error
vector is returned together with the warnings emitted along the way. -/
def perform (out : CmdOutput) : Except (List Err) Unit × List String :=
  if out.exitSuccess then (Except.ok (), [])
  else (Except.error (classifyStderr out.stderrLines).1, (classifyStderr out.stderrLines).2)

/-- Embeds `Interface::check_flake` (main.rs lines 378-381): `nix flake show`
against the path, through the oracle. -/
def checkFlake (check : RunnerOracle) (path : String) :
    Except (List Err) Unit × List String :=
  perform (check path)

/-- Embeds `Interface::update_flake` (main.rs lines 384-387): `nix flake
update` against the path, through the oracle. -/
def updateFlake (runner : RunnerOracle) (path : String) :
    Except (List Err) Unit × List String :=
  perform (runner path)

/-- The warning message of `Interface::enable_flake` (main.rs line 168). -/
def alreadyEnabledMsg (name : String) : String :=
  "flake `" ++ name ++ "` is already enabled"

/-- The warning message of `Interface::disable_flake` (main.rs line 182). -/
def alreadyDisabledMsg (name : String) : String :=
  "flake `" ++ name ++ "` is already disabled"

/-- The duplicate-record warning of `Interface::init` (main.rs lines 430-434). -/
def duplicateMsg (name oldPath : String) : String :=
  "flake `" ++ name ++ "` is present several time in the file. \"" ++ oldPath
    ++ "\" has been removed."

/-- Result of a registry operation: the registry afterwards, the `Result`
value, the paths passed to the external tool, and the warnings emitted. -/
structure OpOutcome where
  state : Registry
  result : Except (List Err) Unit
  invoked : List String
  warnings : List String

/-- Embeds `Interface::add_flake` (main.rs lines 146-159): reject a tracked
name before any probe; otherwise run the validation probe, make the path
absolute (oracle `absO`, `none` modelling the I/O failure of
`path::absolute`), and insert with `enabled = true`. -/
def addFlake (check : RunnerOracle) (absO : String → Option String)
    (st : Registry) (name path : String) : OpOutcome :=
  if containsKey st name then
    { state := st, result := Except.error [Err.trackedFlake name],
      invoked := [], warnings := [] }
  else
    match checkFlake check path with
    | (Except.error errs, warns) =>
      { state := st, result := Except.error errs, invoked := [path], warnings := warns }
    | (Except.ok _, warns) =>
      match absO path with
      | none =>
        { state := st, result := Except.error [Err.ioErr path],
          invoked := [path], warnings := warns }
      | some apath =>
        { state := (insertFlake st name { path := apath, enabled := true }).1,
          result := Except.ok (), invoked := [path], warnings := warns }

/-- Embeds `Interface::enable_flake` (main.rs lines 161-173). -/
def enableFlake (st : Registry) (name : String) :
    Except (List Err) (Registry × List String) :=
  match findFlake st name with
  | none => Except.error [Err.missingFlake name]
  | some flake =>
    let shouldWarn := flake.enabled
    let st1 := (insertFlake st name { flake with enabled := true }).1
    Except.ok (st1, if shouldWarn then [alreadyEnabledMsg name] else [])

/-- Embeds `Interface::disable_flake` (main.rs lines 175-187). -/
def disableFlake (st : Registry) (name : String) :
    Except (List Err) (Registry × List String) :=
  match findFlake st name with
  | none => Except.error [Err.missingFlake name]
  | some flake =>
    let shouldWarn := !flake.enabled
    let st1 := (insertFlake st name { flake with enabled := false }).1
    Except.ok (st1, if shouldWarn then [alreadyDisabledMsg name] else [])

/-- Embeds the named branch of `Interface::update_flakes` (main.rs lines
199-217): look the name up; a missing name is fatal (`Error::NoFlake`); an
enabled flake is updated through the Runner (a failing update is fatal there:
`handle_errors(..., true, ..)`); a disabled flake is silently skipped.
Returns the `Result`, the invoked paths and the emitted warnings. -/
def updateOne (runner : RunnerOracle) (st : Registry) (name : String) :
    Except (List Err) Unit × List String × List String :=
  match st.find? (fun p => p.1 == name) with
  | none => (Except.error [Err.noFlake name], [], [])
  | some p =>
    if p.2.enabled then
      match updateFlake runner p.2.path with
      | (Except.ok _, warns) => (Except.ok (), [p.2.path], warns)
      | (Except.error errs, warns) => (Except.error errs, [p.2.path], warns)
    else (Except.ok (), [], [])

/-- Observable effects of the batch branch of `Interface::update_flakes`:
paths invoked, error vectors reported non-fatally by
`handle_errors(errors, false, ..)`, and warnings emitted. -/
structure BatchEffects where
  invoked : List String
  reported : List (List Err)
  warnings : List String
deriving DecidableEq

/-- Embeds the batch branch of `Interface::update_flakes` (main.rs lines
219-239): every enabled flake is updated in iteration order; a failing update
is reported but does not stop the loop (progress printing to stdout is not
modelled). -/
def updateAll (runner : RunnerOracle) (st : Registry) : BatchEffects :=
  st.foldl
    (fun acc p =>
      if p.2.enabled then
        match updateFlake runner p.2.path with
        | (Except.ok _, warns) =>
          { acc with invoked := acc.invoked ++ [p.2.path],
                     warnings := acc.warnings ++ warns }
        | (Except.error errs, warns) =>
          { acc with invoked := acc.invoked ++ [p.2.path],
                     reported := acc.reported ++ [errs],
                     warnings := acc.warnings ++ warns }
      else acc)
    { invoked := [], reported := [], warnings := [] }

/-- Embeds `Interface::update_flakes` (main.rs lines 198-241) as a
state-passing function.  The Rust method takes `&self`, so the registry
component of the result is the input registry. -/
def updateFlakes (runner : RunnerOracle) (st : Registry) (name : Option String) :
    Registry × Except (List Err) Unit × List String :=
  match name with
  | some n =>
    match updateOne runner st n with
    | (res, inv, _) => (st, res, inv)
  | none => (st, Except.ok (), (updateAll runner st).invoked)

/-- Embeds the record loop of `Interface::init` (main.rs lines 426-437):
insert each parsed record, warning (with the replaced flake's path) when the
insertion returns an old value. -/
def initLoop : Registry → List String → List NamedFlake → Registry × List String
  | st, warns, [] => (st, warns)
  | st, warns, nf :: rest =>
    match insertFlake st nf.name { path := nf.path, enabled := nf.enabled } with
    | (st1, some oldFlake) =>
      initLoop st1 (warns ++ [duplicateMsg nf.name oldFlake.path]) rest
    | (st1, none) => initLoop st1 warns rest

/-- Embeds `Interface::init` (main.rs lines 414-440) at the record level: the
registry and warnings produced by loading a list of parsed CSV records into an
empty map.  File creation and CSV parse failures are not modelled. -/
def initRegistry (records : List NamedFlake) : Registry × List String :=
  initLoop [] [] records

/-- Embeds the serialization loop of `Interface::clean` (main.rs lines
323-328) at the record level: the records written, in iteration order.  The
temp-file-and-rename step is not modelled. -/
def persistRecords (st : Registry) : List NamedFlake :=
  st.map entryToNamed

end SnowPlow

namespace SnowPlow

/-- Looking a key up in an appended registry skips a prefix that lacks it. -/
lemma findFlake_append (st1 st2 : Registry) (n : String)
    (h : findFlake st1 n = none) :
    findFlake (st1 ++ st2) n = findFlake st2 n := by
  unfold findFlake at h ⊢
  have h1 : st1.find? (fun p => p.1 == n) = none := Option.map_eq_none'.mp h
  rw [List.find?_append, h1]
  rfl

/-- The key-replacing map of `insertFlake` rewrites exactly the entry that
`find?` locates. -/
lemma find_replace (st : Registry) (n : String) (f : Flake) :
    (st.map (fun p => if p.1 == n then (p.1, f) else p)).find? (fun p => p.1 == n)
      = (st.find? (fun p => p.1 == n)).map (fun p => (p.1, f)) := by
  induction st with
  | nil => rfl
  | cons q rest ih =>
    rw [List.map_cons]
    by_cases hq : q.1 = n
    · have hb : (q.1 == n) = true := beq_iff_eq.mpr hq
      have hL : List.find? (fun r => r.1 == n)
          ((q.1, f) :: List.map (fun p => if p.1 == n then (p.1, f) else p) rest)
            = some (q.1, f) := List.find?_cons_of_pos _ hb
      have hR : List.find? (fun r => r.1 == n) (q :: rest) = some q :=
        List.find?_cons_of_pos _ hb
      rw [if_pos hb, hL, hR]
      rfl
    · have hb : (q.1 == n) = false := beq_eq_false_iff_ne.mpr hq
      have hnb : ¬ ((q.1 == n) = true) := by simp [hb]
      have hL : List.find? (fun r => r.1 == n)
          (q :: List.map (fun p => if p.1 == n then (p.1, f) else p) rest)
            = List.find? (fun r => r.1 == n)
                (List.map (fun p => if p.1 == n then (p.1, f) else p) rest) :=
        List.find?_cons_of_neg _ hnb
      have hR : List.find? (fun r => r.1 == n) (q :: rest)
          = List.find? (fun r => r.1 == n) rest := List.find?_cons_of_neg _ hnb
      rw [if_neg hnb, hL, hR]
      exact ih

/-- After an insertion, looking the inserted name up returns the new flake. -/
lemma findFlake_insert (st : Registry) (n : String) (f : Flake) :
    findFlake (insertFlake st n f).1 n = some f := by
  cases h : findFlake st n with
  | none =>
    simp only [insertFlake, h]
    rw [findFlake_append st [(n, f)] n h]
    simp [findFlake]
  | some old =>
    simp only [insertFlake, h]
    unfold findFlake
    rw [find_replace]
    unfold findFlake at h
    rcases Option.map_eq_some'.mp h with ⟨q, hq, _⟩
    rw [hq]
    rfl

/-- `contains_key` agrees with `get` being some. -/
lemma containsKey_eq_isSome (st : Registry) (n : String) :
    containsKey st n = (findFlake st n).isSome := by
  unfold containsKey findFlake
  induction st with
  | nil => rfl
  | cons p rest ih =>
    cases hp : (p.1 == n) with
    | true => simp [hp]
    | false => simp [hp, ih]

/-- Every entry of an inserted registry that carries the inserted name is the
inserted pair. -/
lemma insertFlake_key_unique (st : Registry) (n : String) (f : Flake) :
    ∀ p ∈ (insertFlake st n f).1, p.1 = n → p = (n, f) := by
  intro p hp hpn
  cases h : findFlake st n with
  | none =>
    simp only [insertFlake, h] at hp
    rcases List.mem_append.mp hp with hmem | hmem
    · exfalso
      have h1 : st.find? (fun q => q.1 == n) = none := by
        unfold findFlake at h
        exact Option.map_eq_none'.mp h
      have := List.find?_eq_none.mp h1 p hmem
      simp [hpn] at this
    · simpa using hmem
  | some old =>
    simp only [insertFlake, h] at hp
    rcases List.mem_map.mp hp with ⟨q, _, rfl⟩
    by_cases hqn : q.1 = n
    · have hb : (q.1 == n) = true := beq_iff_eq.mpr hqn
      simp only [if_pos hb]
      rw [Prod.ext_iff]
      exact ⟨hqn, rfl⟩
    · have hb : (q.1 == n) = false := beq_eq_false_iff_ne.mpr hqn
      rw [if_neg (by simp [hb] : ¬ ((q.1 == n) = true))] at hpn ⊢
      exact absurd hpn hqn

/-- Replacing a key's value by the value it already holds changes nothing. -/
lemma map_replace_self (st1 : Registry) (n : String) (f : Flake)
    (h : ∀ p ∈ st1, p.1 = n → p = (n, f)) :
    st1.map (fun p => if p.1 == n then (p.1, f) else p) = st1 := by
  conv_rhs => rw [← List.map_id st1]
  apply List.map_congr_left
  intro p hp
  by_cases hpn : p.1 = n
  · have hb : (p.1 == n) = true := beq_iff_eq.mpr hpn
    rw [if_pos hb, h p hp hpn]
    simp
  · have hb : (p.1 == n) = false := beq_eq_false_iff_ne.mpr hpn
    rw [if_neg (by simp [hb] : ¬ ((p.1 == n) = true))]
    rfl

/-- Inserting a value a key already uniquely holds leaves the registry as is. -/
lemma insertFlake_self (st1 : Registry) (n : String) (f : Flake)
    (hfound : findFlake st1 n = some f)
    (hkey : ∀ p ∈ st1, p.1 = n → p = (n, f)) :
    (insertFlake st1 n f).1 = st1 := by
  unfold insertFlake
  rw [hfound]
  exact map_replace_self st1 n f hkey

/-- Re-inserting the value a key was just given leaves the registry as it is. -/
lemma insertFlake_insertFlake (st : Registry) (n : String) (f : Flake) :
    (insertFlake (insertFlake st n f).1 n f).1 = (insertFlake st n f).1 :=
  insertFlake_self _ n f (findFlake_insert st n f) (insertFlake_key_unique st n f)

/-- The record loop distributes over appended record lists. -/
lemma initLoop_append (xs ys : List NamedFlake) : ∀ st warns,
    initLoop st warns (xs ++ ys)
      = initLoop (initLoop st warns xs).1 (initLoop st warns xs).2 ys := by
  induction xs with
  | nil => intro st warns; rfl
  | cons nf rest ih =>
    intro st warns
    rw [List.cons_append]
    simp only [initLoop]
    cases h : insertFlake st nf.name { path := nf.path, enabled := nf.enabled } with
    | mk st1 old =>
      cases old with
      | none => exact ih st1 warns
      | some oldFlake => exact ih st1 (warns ++ [duplicateMsg nf.name oldFlake.path])

/-- Loading records whose names are fresh and mutually distinct appends them
in order and warns about nothing. -/
lemma initLoop_nodup (recs : List NamedFlake) : ∀ st warns,
    (∀ nf ∈ recs, findFlake st nf.name = none) →
    (recs.map NamedFlake.name).Nodup →
    initLoop st warns recs = (st ++ recs.map NamedFlake.toEntry, warns) := by
  induction recs with
  | nil => intro st warns _ _; simp [initLoop]
  | cons nf rest ih =>
    intro st warns habs hnd
    have h0 : findFlake st nf.name = none := habs nf (by simp)
    have hins : insertFlake st nf.name { path := nf.path, enabled := nf.enabled }
        = (st ++ [(nf.name, { path := nf.path, enabled := nf.enabled })], none) := by
      unfold insertFlake
      rw [h0]
    simp only [initLoop, hins]
    have hnotin : nf.name ∉ rest.map NamedFlake.name := by
      rw [List.map_cons] at hnd
      exact (List.nodup_cons.mp hnd).1
    have habs2 : ∀ nf2 ∈ rest,
        findFlake (st ++ [(nf.name, { path := nf.path, enabled := nf.enabled })]) nf2.name
          = none := by
      intro nf2 hmem
      rw [findFlake_append st _ _ (habs nf2 (by simp [hmem]))]
      have hne : (nf.name == nf2.name) = false := by
        apply beq_eq_false_iff_ne.mpr
        intro hc
        exact hnotin (hc ▸ List.mem_map_of_mem NamedFlake.name hmem)
      simp [findFlake, List.find?, hne]
    have hnd2 : (rest.map NamedFlake.name).Nodup := by
      rw [List.map_cons] at hnd
      exact (List.nodup_cons.mp hnd).2
    rw [ih _ warns habs2 hnd2]
    simp [NamedFlake.toEntry]

/-- Lookup in a registry of converted records mirrors `find?` on the records. -/
lemma findFlake_map_toEntry (recs : List NamedFlake) (n : String) :
    findFlake (recs.map NamedFlake.toEntry) n
      = (recs.find? (fun r => r.name == n)).map
          (fun r => { path := r.path, enabled := r.enabled : Flake }) := by
  induction recs with
  | nil => rfl
  | cons r rest ih =>
    rw [List.map_cons]
    by_cases hr : r.name = n
    · have hb : (r.name == n) = true := beq_iff_eq.mpr hr
      have hL : List.find? (fun p => p.1 == n) (r.toEntry :: rest.map NamedFlake.toEntry)
          = some r.toEntry := List.find?_cons_of_pos _ hb
      have hR : List.find? (fun q => q.name == n) (r :: rest) = some r :=
        List.find?_cons_of_pos _ hb
      unfold findFlake
      rw [hL, hR]
      rfl
    · have hnb : ¬ ((r.name == n) = true) := by
        simp [beq_eq_false_iff_ne.mpr hr]
      have hL : List.find? (fun p => p.1 == n) (r.toEntry :: rest.map NamedFlake.toEntry)
          = List.find? (fun p => p.1 == n) (rest.map NamedFlake.toEntry) :=
        List.find?_cons_of_neg _ hnb
      have hR : List.find? (fun q => q.name == n) (r :: rest)
          = List.find? (fun q => q.name == n) rest := List.find?_cons_of_neg _ hnb
      unfold findFlake at ih ⊢
      rw [hL, hR]
      exact ih

/-- Flushing moves the open record, if any, into the result vector. -/
lemma pushError_spec (s : ClassifyState) :
    (pushError s).records.length = s.records.length + openCount s
    ∧ (pushError s).current = none
    ∧ (pushError s).warnings = s.warnings := by
  obtain ⟨recs, warns, cur⟩ := s
  cases cur <;> simp [pushError, openCount]

/-- Each classified line adds one eventual error record exactly when it starts
with the error marker. -/
lemma classifyLine_count (s : ClassifyState) (line : String) :
    (classifyLine s line).records.length + openCount (classifyLine s line)
      = s.records.length + openCount s
        + (if strStartsWith line "error:" then 1 else 0) := by
  obtain ⟨recs, warns, cur⟩ := s
  unfold classifyLine
  by_cases he : strStartsWith line "error:"
  · simp only [if_pos he]
    cases cur <;> simp [pushError, openCount]
  · by_cases hw : strStartsWith line "warning:"
    · simp only [if_neg (by simp [he] : ¬ (strStartsWith line "error:" = true)), if_pos hw,
        if_neg he]
      cases cur <;> simp [pushError, openCount]
    · simp only [if_neg (by simp [he] : ¬ (strStartsWith line "error:" = true)),
        if_neg (by simp [hw] : ¬ (strStartsWith line "warning:" = true)), if_neg he]
      cases cur <;> simp [openCount]

/-- Folding the classifier counts error-marker lines. -/
lemma foldl_classify_count (lines : List String) : ∀ s : ClassifyState,
    (lines.foldl classifyLine s).records.length + openCount (lines.foldl classifyLine s)
      = s.records.length + openCount s
        + lines.countP (fun l => strStartsWith l "error:") := by
  induction lines with
  | nil => intro s; simp
  | cons line rest ih =>
    intro s
    rw [List.foldl_cons, List.countP_cons, ih (classifyLine s line), classifyLine_count]
    omega

/-- The error vector built from a stderr stream has one record per line that
starts with the error marker. -/
lemma classifyStderr_length (lines : List String) :
    (classifyStderr lines).1.length = lines.countP (fun l => strStartsWith l "error:") := by
  have h := foldl_classify_count lines { records := [], warnings := [], current := none }
  have hp := (pushError_spec
    (lines.foldl classifyLine { records := [], warnings := [], current := none })).1
  have h0 : ({ records := [], warnings := [], current := none } : ClassifyState).records.length
      = 0 := rfl
  have h1 : openCount { records := [], warnings := [], current := none } = 0 := rfl
  rw [h0, h1] at h
  show (pushError
      (List.foldl classifyLine { records := [], warnings := [], current := none } lines)).records.length
    = lines.countP (fun l => strStartsWith l "error:")
  rw [hp]
  omega

/-- C1: for every registry with unique names, persisting it (in any iteration
order) and loading the produced records back yields a registry with exactly
the same set of (name, location, enabled) entries. -/
theorem persist_load_roundtrip (st : Registry) (recs : List NamedFlake)
    (hnd : (st.map Prod.fst).Nodup)
    (hperm : recs.Perm (persistRecords st)) :
    ∀ e : String × Flake, e ∈ (initRegistry recs).1 ↔ e ∈ st := by
  have hmapname : (persistRecords st).map NamedFlake.name = st.map Prod.fst := by
    unfold persistRecords
    rw [List.map_map]
    rfl
  have hnd2 : (recs.map NamedFlake.name).Nodup := by
    have hpm := hperm.map NamedFlake.name
    rw [hmapname] at hpm
    exact hpm.nodup_iff.mpr hnd
  have habs : ∀ nf ∈ recs, findFlake [] nf.name = none := fun _ _ => rfl
  have hload : initRegistry recs = (recs.map NamedFlake.toEntry, []) := by
    unfold initRegistry
    rw [initLoop_nodup recs [] [] habs hnd2]
    rfl
  have hid : (persistRecords st).map NamedFlake.toEntry = st := by
    unfold persistRecords
    rw [List.map_map]
    have hfun : NamedFlake.toEntry ∘ entryToNamed = id := by
      funext p
      rfl
    rw [hfun, List.map_id]
  have hperm2 : (recs.map NamedFlake.toEntry).Perm st := by
    have h2 := hperm.map NamedFlake.toEntry
    rw [hid] at h2
    exact h2
  intro e
  rw [hload]
  exact hperm2.mem_iff

/-- Witness for C1 at a two-entry registry serialized in reversed order. -/
theorem persist_load_roundtrip_witness :
    (("a", { path := "/x", enabled := true }) ∈
        (initRegistry [{ name := "b", path := "/y", enabled := false },
          { name := "a", path := "/x", enabled := true }]).1
      ↔ ("a", { path := "/x", enabled := true }) ∈
          ([("a", { path := "/x", enabled := true }),
            ("b", { path := "/y", enabled := false })] : Registry)) :=
  persist_load_roundtrip
    [("a", { path := "/x", enabled := true }), ("b", { path := "/y", enabled := false })]
    [{ name := "b", path := "/y", enabled := false },
      { name := "a", path := "/x", enabled := true }]
    (by decide) (by decide) ("a", { path := "/x", enabled := true })

/-- C2: on a failing invocation whose stderr is "error: A", "context1",
"warning: B", "error: C", classification yields exactly two error records,
`error: A` with detail `context1` and `error: C` with no details, and exactly
one immediately emitted warning for the `warning: B` line. -/
theorem stderr_classification_example :
    perform { exitSuccess := false,
              stderrLines := ["error: A", "context1", "warning: B", "error: C"] }
      = (Except.error [Err.nix ["error: A", "context1"], Err.nix ["error: C"]],
         ["nix: warning: B"]) := by
  decide

/-- C4 counterexample: loading two records with the same name keeps the
later record, not the first-loaded one as the claim states. -/
theorem load_duplicate_counterexample :
    findFlake (initRegistry [{ name := "a", path := "/p1", enabled := true },
        { name := "a", path := "/p2", enabled := false }]).1 "a"
      = some { path := "/p2", enabled := false }
    ∧ ¬ (findFlake (initRegistry [{ name := "a", path := "/p1", enabled := true },
        { name := "a", path := "/p2", enabled := false }]).1 "a"
      = some { path := "/p1", enabled := true }) := by
  decide

/-- C4 amended: when a record's name duplicates an already-seen name, the
later record replaces the first-loaded entry, which is dropped with a single
warning identifying the discarded (first-loaded) path; loading continues and
the registry size is unchanged. -/
theorem load_duplicate_later_wins (pre : List NamedFlake) (nf nfOld : NamedFlake)
    (hnd : (pre.map NamedFlake.name).Nodup)
    (hfind : pre.find? (fun r => r.name == nf.name) = some nfOld) :
    (initRegistry (pre ++ [nf])).2 = [duplicateMsg nf.name nfOld.path]
    ∧ findFlake (initRegistry (pre ++ [nf])).1 nf.name
        = some { path := nf.path, enabled := nf.enabled }
    ∧ (initRegistry (pre ++ [nf])).1.length = pre.length := by
  have habs : ∀ r ∈ pre, findFlake [] r.name = none := fun _ _ => rfl
  have hpre : initLoop [] [] pre = (pre.map NamedFlake.toEntry, []) :=
    initLoop_nodup pre [] [] habs hnd
  have hfm : findFlake (pre.map NamedFlake.toEntry) nf.name
      = some { path := nfOld.path, enabled := nfOld.enabled } := by
    rw [findFlake_map_toEntry, hfind]
    rfl
  have hins : insertFlake (pre.map NamedFlake.toEntry) nf.name
      { path := nf.path, enabled := nf.enabled }
      = ((pre.map NamedFlake.toEntry).map
          (fun p => if p.1 == nf.name then (p.1, { path := nf.path, enabled := nf.enabled }) else p),
         some { path := nfOld.path, enabled := nfOld.enabled }) := by
    unfold insertFlake
    rw [hfm]
  have hfin : findFlake ((pre.map NamedFlake.toEntry).map
      (fun p => if p.1 == nf.name then (p.1, { path := nf.path, enabled := nf.enabled }) else p))
      nf.name = some { path := nf.path, enabled := nf.enabled } := by
    have h := findFlake_insert (pre.map NamedFlake.toEntry) nf.name
      { path := nf.path, enabled := nf.enabled }
    rw [hins] at h
    exact h
  unfold initRegistry
  rw [initLoop_append pre [nf] [] [], hpre]
  simp only [initLoop, hins]
  refine ⟨by simp, hfin, by simp⟩

/-- Witness for C4's amended theorem at a concrete duplicated record. -/
theorem load_duplicate_later_wins_witness :
    (initRegistry ([{ name := "a", path := "/p1", enabled := true }] ++
        [{ name := "a", path := "/p2", enabled := false }])).2
      = [duplicateMsg "a" "/p1"]
    ∧ findFlake (initRegistry ([{ name := "a", path := "/p1", enabled := true }] ++
        [{ name := "a", path := "/p2", enabled := false }])).1 "a"
      = some { path := "/p2", enabled := false }
    ∧ (initRegistry ([{ name := "a", path := "/p1", enabled := true }] ++
        [{ name := "a", path := "/p2", enabled := false }])).1.length
      = [({ name := "a", path := "/p1", enabled := true } : NamedFlake)].length :=
  load_duplicate_later_wins [{ name := "a", path := "/p1", enabled := true }]
    { name := "a", path := "/p2", enabled := false }
    { name := "a", path := "/p1", enabled := true }
    (by decide) (by decide)

/-- C5 counterexample: a zero-exit update whose stderr holds a warning line
returns success but emits no warning at all — the stderr content is not
reported, contradicting the claim that every stderr line is reported. -/
theorem success_stderr_counterexample :
    updateFlake (fun _ => { exitSuccess := true, stderrLines := ["warning: B"] }) "/p"
      = (Except.ok (), [])
    ∧ ¬ (nixWarnMsg "warning: B" ∈
        (updateFlake (fun _ => { exitSuccess := true, stderrLines := ["warning: B"] }) "/p").2) := by
  decide

/-- C5 amended: when the external tool exits with code zero, `run_update`
returns success and emits no diagnostics; the stderr stream is never read, so
its lines are not reported as warnings. -/
theorem success_ignores_stderr (runner : RunnerOracle) (path : String)
    (h : (runner path).exitSuccess = true) :
    updateFlake runner path = (Except.ok (), []) := by
  unfold updateFlake perform
  rw [if_pos h]

/-- Witness for C5's amended theorem with a concrete zero-exit runner. -/
theorem success_ignores_stderr_witness :
    ((fun _ => { exitSuccess := true, stderrLines := ["warning: B"] } : RunnerOracle) "/p").exitSuccess
        = true
    ∧ updateFlake (fun _ => { exitSuccess := true, stderrLines := ["warning: B"] }) "/p"
        = (Except.ok (), []) :=
  ⟨rfl, success_ignores_stderr (fun _ => { exitSuccess := true, stderrLines := ["warning: B"] })
    "/p" rfl⟩

/-- C6 counterexample: a non-zero exit whose stderr is a single warning line
fails with an empty error-record list, contradicting the claim that every
failure carries at least one record. -/
theorem failure_empty_records_counterexample :
    perform { exitSuccess := false, stderrLines := ["warning: B"] }
      = (Except.error [], ["nix: warning: B"])
    ∧ (classifyStderr ["warning: B"]).1.length = 0 := by
  decide

/-- C6 amended: every non-zero exit yields a failure whose record list has
exactly one ErrorRecord per stderr line starting with the error marker; in
particular the list is empty when stderr holds no such line (empty stderr, or
only warning or unmarked lines). -/
theorem failure_record_count (lines : List String) :
    (perform { exitSuccess := false, stderrLines := lines }).1
        = Except.error (classifyStderr lines).1
    ∧ (classifyStderr lines).1.length
        = lines.countP (fun l => strStartsWith l "error:") :=
  ⟨rfl, classifyStderr_length lines⟩

/-- C10: the update operations never touch the registry: with either an
explicit name or the batch form, the registry after `update_flakes` is the
input registry (the Rust method only holds `&self`). -/
theorem update_preserves_registry (runner : RunnerOracle) (st : Registry)
    (name : Option String) :
    (updateFlakes runner st name).1 = st := by
  cases name with
  | none => rfl
  | some n =>
    unfold updateFlakes
    rcases updateOne runner st n with ⟨res, inv, warns⟩
    rfl

/-- C3: with three enabled entries where the runner fails exactly on the
second path, the batch update still invokes the tool for the first and the
third entry (all three, in order) and reports exactly one failing entry. -/
theorem batch_resilience (runner : RunnerOracle) (n1 n2 n3 p1 p2 p3 : String)
    (h1 : (runner p1).exitSuccess = true)
    (h2 : (runner p2).exitSuccess = false)
    (h3 : (runner p3).exitSuccess = true) :
    (updateAll runner [(n1, { path := p1, enabled := true }),
        (n2, { path := p2, enabled := true }),
        (n3, { path := p3, enabled := true })]).invoked = [p1, p2, p3]
    ∧ (updateAll runner [(n1, { path := p1, enabled := true }),
        (n2, { path := p2, enabled := true }),
        (n3, { path := p3, enabled := true })]).reported.length = 1 := by
  unfold updateAll updateFlake perform
  simp [h1, h2, h3]

/-- Witness for C3 with a concrete runner failing only on the second path. -/
theorem batch_resilience_witness :
    (updateAll (fun p => if p == "/b" then { exitSuccess := false, stderrLines := ["error: X"] }
        else { exitSuccess := true, stderrLines := [] })
      [("a", { path := "/a", enabled := true }), ("b", { path := "/b", enabled := true }),
        ("c", { path := "/c", enabled := true })]).invoked = ["/a", "/b", "/c"]
    ∧ (updateAll (fun p => if p == "/b" then { exitSuccess := false, stderrLines := ["error: X"] }
        else { exitSuccess := true, stderrLines := [] })
      [("a", { path := "/a", enabled := true }), ("b", { path := "/b", enabled := true }),
        ("c", { path := "/c", enabled := true })]).reported.length = 1 :=
  batch_resilience
    (fun p => if p == "/b" then { exitSuccess := false, stderrLines := ["error: X"] }
      else { exitSuccess := true, stderrLines := [] })
    "a" "b" "c" "/a" "/b" "/c" (by decide) (by decide) (by decide)

/-- C7: adding a name that is already tracked fails with the duplicate-name
error before any validation probe and leaves the registry unchanged, still
holding the first entry; adding an absent name whose probe succeeds inserts
the entry with the absolutized location and enabled set. -/
theorem add_duplicate_and_insert (check : RunnerOracle) (absO : String → Option String)
    (st st2 : Registry) (name path apath : String) (flake0 : Flake)
    (hfound : findFlake st name = some flake0)
    (habs : containsKey st2 name = false)
    (hcheck : (check path).exitSuccess = true)
    (habso : absO path = some apath) :
    (addFlake check absO st name path).state = st
    ∧ (addFlake check absO st name path).result = Except.error [Err.trackedFlake name]
    ∧ (addFlake check absO st name path).invoked = []
    ∧ findFlake (addFlake check absO st name path).state name = some flake0
    ∧ (addFlake check absO st2 name path).result = Except.ok ()
    ∧ findFlake (addFlake check absO st2 name path).state name
        = some { path := apath, enabled := true } := by
  have hck : containsKey st name = true := by
    rw [containsKey_eq_isSome, hfound]
    rfl
  have hdup : addFlake check absO st name path
      = { state := st, result := Except.error [Err.trackedFlake name],
          invoked := [], warnings := [] } := by
    unfold addFlake
    rw [if_pos hck]
  have hperf : checkFlake check path = (Except.ok (), []) := by
    unfold checkFlake perform
    rw [if_pos hcheck]
  have hins : addFlake check absO st2 name path
      = { state := (insertFlake st2 name { path := apath, enabled := true }).1,
          result := Except.ok (), invoked := [path], warnings := [] } := by
    unfold addFlake
    rw [if_neg (by simp [habs]), hperf, habso]
  refine ⟨by rw [hdup], by rw [hdup], by rw [hdup], by rw [hdup]; exact hfound,
    by rw [hins], by rw [hins]; exact findFlake_insert st2 name _⟩

/-- Witness for C7: duplicate rejection on a one-entry registry and a
successful insertion into an empty registry. -/
theorem add_duplicate_and_insert_witness :
    (addFlake (fun _ => { exitSuccess := true, stderrLines := [] })
        (fun _ => some "/abs/p2") [("x", { path := "/p1", enabled := true })] "x" "p2").state
      = [("x", { path := "/p1", enabled := true })]
    ∧ (addFlake (fun _ => { exitSuccess := true, stderrLines := [] })
        (fun _ => some "/abs/p2") [("x", { path := "/p1", enabled := true })] "x" "p2").result
      = Except.error [Err.trackedFlake "x"]
    ∧ (addFlake (fun _ => { exitSuccess := true, stderrLines := [] })
        (fun _ => some "/abs/p2") [("x", { path := "/p1", enabled := true })] "x" "p2").invoked
      = []
    ∧ findFlake (addFlake (fun _ => { exitSuccess := true, stderrLines := [] })
        (fun _ => some "/abs/p2") [("x", { path := "/p1", enabled := true })] "x" "p2").state "x"
      = some { path := "/p1", enabled := true }
    ∧ (addFlake (fun _ => { exitSuccess := true, stderrLines := [] })
        (fun _ => some "/abs/p2") [] "x" "p2").result = Except.ok ()
    ∧ findFlake (addFlake (fun _ => { exitSuccess := true, stderrLines := [] })
        (fun _ => some "/abs/p2") [] "x" "p2").state "x"
      = some { path := "/abs/p2", enabled := true } :=
  add_duplicate_and_insert (fun _ => { exitSuccess := true, stderrLines := [] })
    (fun _ => some "/abs/p2") [("x", { path := "/p1", enabled := true })] [] "x" "p2" "/abs/p2"
    { path := "/p1", enabled := true } (by decide) (by decide) (by decide) (by decide)

/-- C8: disabling an enabled entry succeeds without a warning and leaves the
flag false; disabling it again returns the very same registry, the flag still
false, and emits exactly one redundancy warning. -/
theorem disable_twice (st : Registry) (name : String) (flake : Flake)
    (hfound : findFlake st name = some flake) (hen : flake.enabled = true) :
    disableFlake st name
        = Except.ok ((insertFlake st name { path := flake.path, enabled := false }).1, [])
    ∧ findFlake (insertFlake st name { path := flake.path, enabled := false }).1 name
        = some { path := flake.path, enabled := false }
    ∧ disableFlake (insertFlake st name { path := flake.path, enabled := false }).1 name
        = Except.ok ((insertFlake st name { path := flake.path, enabled := false }).1,
            [alreadyDisabledMsg name]) := by
  have hfd := findFlake_insert st name
    { path := flake.path, enabled := false }
  refine ⟨?_, hfd, ?_⟩
  · simp [disableFlake, hfound, hen]
  · simp [disableFlake, hfd, insertFlake_insertFlake]

/-- Witness for C8 on a one-entry registry with an enabled flake. -/
theorem disable_twice_witness :
    disableFlake [("n", { path := "/p", enabled := true })] "n"
        = Except.ok ((insertFlake [("n", { path := "/p", enabled := true })] "n"
            { path := "/p", enabled := false }).1, [])
    ∧ findFlake (insertFlake [("n", { path := "/p", enabled := true })] "n"
        { path := "/p", enabled := false }).1 "n"
        = some { path := "/p", enabled := false }
    ∧ disableFlake (insertFlake [("n", { path := "/p", enabled := true })] "n"
        { path := "/p", enabled := false }).1 "n"
        = Except.ok ((insertFlake [("n", { path := "/p", enabled := true })] "n"
            { path := "/p", enabled := false }).1, [alreadyDisabledMsg "n"]) :=
  disable_twice [("n", { path := "/p", enabled := true })] "n"
    { path := "/p", enabled := true } (by decide) (by decide)

/-- C9: updating a named entry that exists but is disabled performs no
invocation, emits no warning and returns success; updating an absent name
fails with the unknown-flake error without any invocation. -/
theorem update_disabled_noop (runner : RunnerOracle) (st : Registry)
    (name n2 : String) (flake : Flake)
    (hfound : findFlake st name = some flake) (hdis : flake.enabled = false)
    (habsent : findFlake st n2 = none) :
    updateOne runner st name = (Except.ok (), [], [])
    ∧ updateOne runner st n2 = (Except.error [Err.noFlake n2], [], []) := by
  constructor
  · unfold findFlake at hfound
    rcases Option.map_eq_some'.mp hfound with ⟨q, hq, hq2⟩
    have hqe : q.2.enabled = false := by rw [hq2, hdis]
    simp only [updateOne, hq, hqe]
    rfl
  · unfold findFlake at habsent
    simp only [updateOne, Option.map_eq_none'.mp habsent]

/-- Witness for C9 on a registry with one disabled entry and a missing name. -/
theorem update_disabled_noop_witness :
    updateOne (fun _ => { exitSuccess := true, stderrLines := [] })
        [("y", { path := "/p", enabled := false })] "y" = (Except.ok (), [], [])
    ∧ updateOne (fun _ => { exitSuccess := true, stderrLines := [] })
        [("y", { path := "/p", enabled := false })] "z"
      = (Except.error [Err.noFlake "z"], [], []) :=
  update_disabled_noop (fun _ => { exitSuccess := true, stderrLines := [] })
    [("y", { path := "/p", enabled := false })] "y" "z" { path := "/p", enabled := false }
    (by decide) (by decide) (by decide)

end SnowPlow
